import Mathlib

/-!
Verification of the apilmoji / pilmoji rendering pipeline.

The development shallowly embeds the two renderer cores of the repository
(`src/apilmoji/core.py` and `src/pilmoji/core.py`) together with the emoji
source layer (`src/pilmoji/source.py`).  Machine behaviour is modelled over
`Int` and `Nat`; Python `int(x)` applied to an exact ratio of integers is
truncation toward zero, which is `Int.tdiv` on the exact numerator and
denominator.  Where the program computes through IEEE-754 doubles (the
aspect-ratio height of the bitmap resize), the double value is carried as
an explicit platform-arithmetic capability constrained by its rounding
error envelope (`pyTrunc`, `exactRatio`, `floatEnvelope`).  External
collaborators (the PIL image decoder, the HTTP
client, the on-disk store, the font) are passed in as explicit function
parameters, mirroring the abstract Canvas / Font / Fetcher / Store
capabilities of the specification.
-/

/-- Node kinds, from `helper.NodeType` as used by both cores
(`NodeType.EMOJI`, `NodeType.DISCORD_EMOJI`, plain text otherwise). -/
inductive NodeType where
  | TEXT
  | EMOJI
  | DISCORD_EMOJI
  deriving DecidableEq

/-- One classified unit of a text line: a kind together with its content
string, as produced by the tokenizer and consumed by both cores. -/
structure Node where
  type : NodeType
  content : String
  deriving DecidableEq

/-- Raw encoded image bytes (`io.BytesIO` contents). -/
def Bytes : Type := List Nat

instance : DecidableEq Bytes := by
  unfold Bytes
  infer_instance

/-- Transport failures raised by `httpx`; `raise_for_status` raises
`HTTPStatusError`, timeouts and connection failures raise other
`HTTPError` subclasses.  All are subclasses of `httpx.HTTPError`. -/
inductive HTTPFailure where
  | statusError (code : Nat)
  | timeout
  | connectError
  deriving DecidableEq

/-- Result of one `get_emoji` / `get_discord_emoji` call of
`src/pilmoji/source.py`: the returned stream (`None` on miss), the list of
URLs fetched over the network, and the disk write performed, if any. -/
structure SourceResult where
  result : Option Bytes
  fetched : List String
  written : Option (String × Bytes)
  deriving DecidableEq

/-- Disk-cache path used by `EmojiCDNSource.get_emoji` (source.py line 155):
`self.cache_dir / self.style / f"{emoji}.png"`, relative to `cache_dir`. -/
def emojiCachePath (style : String) (emoji : String) : String :=
  style ++ "/" ++ emoji ++ ".png"

/-- Disk-cache path used by `DiscordEmojiSourceMixin.get_discord_emoji`
(source.py lines 130 and 131): `self.cache_dir / "discord" / f"{id}.png"`. -/
def discordCachePath (id : Int) : String :=
  "discord/" ++ toString id ++ ".png"

/-- URL requested by `EmojiCDNSource.get_emoji` (source.py line 160).  The
f-string there is `f"https://emojicdn.elk.sh/emoji?style={self.style}"`:
it interpolates only the style; the `emoji` parameter does not occur in
it, so the parameter is unused here exactly as in the source. -/
def getEmojiUrl (style : String) (_emoji : String) : String :=
  "https://emojicdn.elk.sh/emoji?style=" ++ style

/-- URL requested by `DiscordEmojiSourceMixin.get_discord_emoji`
(source.py line 136): `f"https://cdn.discordapp.com/emojis/{file_name}"`
with `file_name = f"{id}.png"`. -/
def getDiscordEmojiUrl (id : Int) : String :=
  "https://cdn.discordapp.com/emojis/" ++ toString id ++ ".png"

/-- `EmojiCDNSource.get_emoji` (source.py lines 154-168).  `disk` is the
Store capability (path to stored bytes), `fetch` is the Fetcher capability
(`self.download`, which raises `HTTPError` on non-2xx or transport
failure).  On a disk hit the stored bytes are returned with no fetch; on a
miss the URL is fetched, the bytes are written back and returned; every
`HTTPError` is caught and converted to `None`. -/
def get_emoji (style : String) (disk : String → Option Bytes)
    (fetch : String → Except HTTPFailure Bytes) (emoji : String) : SourceResult :=
  match disk (emojiCachePath style emoji) with
  | some b => ⟨some b, [], none⟩
  | none =>
    match fetch (getEmojiUrl style emoji) with
    | Except.ok b => ⟨some b, [getEmojiUrl style emoji], some (emojiCachePath style emoji, b)⟩
    | Except.error _ => ⟨none, [getEmojiUrl style emoji], none⟩

/-- `DiscordEmojiSourceMixin.get_discord_emoji` (source.py lines 129-144):
same cache-then-fetch-then-write structure against the `discord`
subdirectory and the Discord CDN URL, with every `HTTPError` converted to
`None`. -/
def get_discord_emoji (disk : String → Option Bytes)
    (fetch : String → Except HTTPFailure Bytes) (id : Int) : SourceResult :=
  match disk (discordCachePath id) with
  | some b => ⟨some b, [], none⟩
  | none =>
    match fetch (getDiscordEmojiUrl id) with
    | Except.ok b => ⟨some b, [getDiscordEmojiUrl id], some (discordCachePath id, b)⟩
    | Except.error _ => ⟨none, [getDiscordEmojiUrl id], none⟩

/-- Exact-arithmetic idealization of the resized dimensions computed by
`Pilmoji._resize_emoji` of `src/apilmoji/core.py` (lines 23-32):
`emoji_size = int(size) - 2` and the new size is
`(emoji_size, int(emoji_size * (height / width)))`.  The width `w` and
height `h` are the decoded image dimensions; `size` is already the
integer part of the font size.  The width component is exact integer
arithmetic; the height component idealizes the double-precision product
`emoji_size * (height / width)` as the exact ratio (truncation toward
zero of the exact ratio is `Int.tdiv`).  The program computes that
product in IEEE-754 doubles, which can land one below the exact floor
(e.g. `int(22 * (15 / 22))` is 14, not 15); the claim-3 definitions
below carry the double computation explicitly.  This idealized height is
used only for the dimensions recorded in paste events of the render
models; no theorem about them depends on the height value. -/
def apilmojiResizeDims (w h : Int) (size : Int) : Int × Int :=
  (size - 2, Int.tdiv ((size - 2) * h) w)

/-- `Pilmoji.EMOJI_PADDING` of `src/pilmoji/core.py` (line 14). -/
def EMOJI_PADDING : Int := 1

/-- Exact-arithmetic idealization of the resized dimensions computed by
`Pilmoji._render_emoji` of `src/pilmoji/core.py` (lines 84-91):
`emoji_size = int(size) - EMOJI_PADDING` and the new size is
`(emoji_size, int(emoji_size * (height / width)))`, with the same
idealized-height caveat as `apilmojiResizeDims`. -/
def pilmojiResizeDims (w h : Int) (size : Int) : Int × Int :=
  (size - EMOJI_PADDING, Int.tdiv ((size - EMOJI_PADDING) * h) w)

/-- Python `int()` applied to a float value given as the exact rational it
denotes: truncation toward zero. -/
def pyTrunc (q : ℚ) : Int :=
  Int.tdiv q.num q.den

/-- The exact value of `emoji_size * (height / width)`. -/
def exactRatio (es h w : Int) : ℚ :=
  (es * h : ℚ) / (w : ℚ)

/-- Constraint tying the platform-arithmetic capability `pyProd` (the
double-precision value of `emoji_size * (height / width)`, as the exact
rational it denotes) to the exact ratio: the program evaluates
`height / width` and the product by two correctly rounded IEEE-754
binary64 operations, each with relative error at most `2 ^ (-53)` in the
normal range, so the computed value lies within relative error
`2 ^ (-50)` of the exact ratio. -/
def floatEnvelope (pyProd : Int → Int → Int → ℚ) (es h w : Int) : Prop :=
  |pyProd es h w - exactRatio es h w| ≤ exactRatio es h w / 2 ^ 50

/-- Resized dimensions computed by `Pilmoji._resize_emoji` of
`src/apilmoji/core.py` (lines 23-32) with the double-precision product
`emoji_size * (height / width)` made explicit: `emoji_size = int(size) -
2`, and the height is Python `int()` of the float product, supplied by
the platform-arithmetic capability `pyProd` (constrained by
`floatEnvelope` where a theorem needs it). -/
def apilmojiResizeDimsFl (pyProd : Int → Int → Int → ℚ) (w h : Int)
    (size : Int) : Int × Int :=
  (size - 2, pyTrunc (pyProd (size - 2) h w))

/-- Resized dimensions computed by `Pilmoji._render_emoji` of
`src/pilmoji/core.py` (lines 84-91) with the double-precision product
made explicit, as in `apilmojiResizeDimsFl`. -/
def pilmojiResizeDimsFl (pyProd : Int → Int → Int → ℚ) (w h : Int)
    (size : Int) : Int × Int :=
  (size - EMOJI_PADDING, pyTrunc (pyProd (size - EMOJI_PADDING) h w))

/-- Vertical offset `y_diff = int((line_height - font_size) / 2)` computed
once per render call by both cores (apilmoji core.py line 98, pilmoji
core.py line 142).  Python `int` truncates the exact half toward zero. -/
def y_diff (lineHeight fontSize : Int) : Int :=
  Int.tdiv (lineHeight - fontSize) 2

/-- A drawing primitive issued to the Canvas: `draw.text((x, y), content)`
or `image.paste(resized, (x, y), resized)` with the resized dimensions. -/
inductive DrawEvent where
  | text (x y : Int) (content : String)
  | paste (x y : Int) (w h : Int)
  deriving DecidableEq

/-- The abstract Font capability: `get_font_size(font)`,
`get_font_height(font)`, and `int(font.getlength(s))`. -/
structure RenderFont where
  size : Int
  height : Int
  getlength : String → Int

/-- Body of the key-collection loop of `apilmoji.Pilmoji.text` (core.py
lines 83-88): insert a Unicode-emoji content into `emj_set` and a
Discord-emoji content into `ds_emj_set`. -/
def collectStep (a : Finset String × Finset String) (n : Node) :
    Finset String × Finset String :=
  if n.type = NodeType.EMOJI then (insert n.content a.1, a.2)
  else if n.type = NodeType.DISCORD_EMOJI then (a.1, insert n.content a.2)
  else a

/-- The key-collection loop of `apilmoji.Pilmoji.text` (core.py lines
81-88): walk every node of every line, starting from two empty sets. -/
def collectSets (nodesLst : List (List Node)) : Finset String × Finset String :=
  nodesLst.foldl (fun acc nodes => nodes.foldl collectStep acc) (∅, ∅)

/-- The set comprehension of `pilmoji.Pilmoji.text` (core.py line 128):
`{node.content for line in lines for node in line if node.type is
NodeType.EMOJI}`. -/
def pilmojiEmojiSet (lines : List (List Node)) : Finset String :=
  ((lines.flatten.filter (fun n => n.type = NodeType.EMOJI)).map
    (fun n => n.content)).toFinset

/-- The resolver task list of `pilmoji.Pilmoji.text` (core.py line 131):
one `_get_emoji` coroutine per element of `emoji_set`.  A Python set
enumerates each of its elements exactly once; the deduplicated content
list is such an enumeration. -/
def pilmojiEmojiTasks (lines : List (List Node)) : List String :=
  ((lines.flatten.filter (fun n => n.type = NodeType.EMOJI)).map
    (fun n => n.content)).dedup

/-- Inner node loop of `apilmoji.Pilmoji.text` (core.py lines 110-122).
`resized` is the pre-resized emoji map built before the loop; an
emoji-typed node found there is pasted at `(cur_x + 1, y + y_diff)` and
the cursor advances by `int(font_size)`; every other node is drawn as text
at `(cur_x, y)` and the cursor advances by `int(font.getlength(content))`. -/
def apilmojiNodes (resized : String → Option (Int × Int)) (font : RenderFont)
    (yd y : Int) : Int → List Node → List DrawEvent
  | _, [] => []
  | curX, n :: rest =>
    match (if n.type = NodeType.EMOJI ∨ n.type = NodeType.DISCORD_EMOJI
           then resized n.content else none) with
    | some wh =>
      DrawEvent.paste (curX + 1) (y + yd) wh.1 wh.2 ::
        apilmojiNodes resized font yd y (curX + font.size) rest
    | none =>
      DrawEvent.text curX y n.content ::
        apilmojiNodes resized font yd y (curX + font.getlength n.content) rest

/-- Outer line loop of `apilmoji.Pilmoji.text` (core.py lines 107-124):
each line restarts the cursor at `x` and `y` then grows by
`line_height`. -/
def apilmojiLines (resized : String → Option (Int × Int)) (font : RenderFont)
    (yd lineHeight x : Int) : Int → List (List Node) → List DrawEvent
  | _, [] => []
  | y, line :: rest =>
    apilmojiNodes resized font yd y x line ++
      apilmojiLines resized font yd lineHeight x (y + lineHeight) rest

/-- Concatenation of the node contents of one line; by the tokenizer
round-trip this is the raw line string drawn by the no-emoji fast path. -/
def lineContent (nodes : List Node) : String :=
  nodes.foldl (fun s n => s ++ n.content) ""

/-- Whether the stream a key resolved to, if any, decodes successfully:
a key with no stream is not an error (textual fallback), a key whose
stream `Image.open` rejects is. -/
def decodeOk (decode : Bytes → Option (Int × Int))
    (emjMap : String → Option Bytes) (e : String) : Bool :=
  match emjMap e with
  | some b => (decode b).isSome
  | none => true

/-- `apilmoji.Pilmoji.text` (core.py lines 64-124) from the tokenized
lines onward, producing the draw events and an error flag.  When no node
is emoji-typed the fast path (lines 72-76) draws each raw line.
Otherwise the distinct keys are collected, the resolver result `emjMap`
is consulted, and all streams are decoded and resized up front (the
`resized_emjs` dict comprehension of lines 101-105); a stream that fails
to decode raises out of that comprehension, so the call errors with no
draw event issued.  Only then does the line loop run. -/
def apilmojiText (decode : Bytes → Option (Int × Int)) (font : RenderFont)
    (lineHeight : Int) (x y : Int) (nodesLst : List (List Node))
    (emjMap : String → Option Bytes) : List DrawEvent × Bool :=
  let sets := collectSets nodesLst
  let combined := sets.1 ∪ sets.2
  if combined = ∅ then
    ((List.range nodesLst.length).zip nodesLst |>.map
      (fun p => DrawEvent.text x (y + p.1 * lineHeight) (lineContent p.2)), false)
  else
    if ∀ e ∈ combined, decodeOk decode emjMap e = true then
      let resized : String → Option (Int × Int) := fun e =>
        if e ∈ combined then
          (emjMap e).bind (fun b =>
            (decode b).map (fun wh => apilmojiResizeDims wh.1 wh.2 font.size))
        else none
      (apilmojiLines resized font (y_diff lineHeight font.size) lineHeight x y nodesLst,
        false)
    else ([], true)

/-- Inner node loop of `pilmoji.Pilmoji.text` (core.py lines 147-155).  An
emoji-typed node whose stream is present is decoded and resized *here*,
inside the draw loop (`_render_emoji`, lines 76-93): on success the
resized bitmap is pasted at `(cur_x, y + y_diff)` and the cursor advances
by the resized width; a failing decode raises, so the returned flag is
set and no further event of this render call is issued.  Every other node
is drawn as text. -/
def pilmojiNodes (decode : Bytes → Option (Int × Int))
    (emojiMap : String → Option Bytes) (font : RenderFont)
    (yd y : Int) : Int → List Node → List DrawEvent × Bool
  | _, [] => ([], false)
  | curX, n :: rest =>
    match (if n.type = NodeType.EMOJI then emojiMap n.content else none) with
    | some b =>
      match decode b with
      | some wh =>
        let dims := pilmojiResizeDims wh.1 wh.2 font.size
        let res := pilmojiNodes decode emojiMap font yd y (curX + dims.1) rest
        (DrawEvent.paste curX (y + yd) dims.1 dims.2 :: res.1, res.2)
      | none => ([], true)
    | none =>
      let res := pilmojiNodes decode emojiMap font yd y
        (curX + font.getlength n.content) rest
      (DrawEvent.text curX y n.content :: res.1, res.2)

/-- Outer line loop of `pilmoji.Pilmoji.text` (core.py lines 144-157);
an error inside a line aborts the whole call, keeping the events already
issued. -/
def pilmojiLines (decode : Bytes → Option (Int × Int))
    (emojiMap : String → Option Bytes) (font : RenderFont)
    (yd lineHeight x : Int) : Int → List (List Node) → List DrawEvent × Bool
  | _, [] => ([], false)
  | y, line :: rest =>
    let res := pilmojiNodes decode emojiMap font yd y x line
    if res.2 then res
    else
      let res2 := pilmojiLines decode emojiMap font yd lineHeight x (y + lineHeight) rest
      (res.1 ++ res2.1, res2.2)

/-- `pilmoji.Pilmoji.text` (core.py lines 95-157) from the tokenized lines
onward: resolution of the whole key set happens before this point
(`asyncio.gather`, line 134) and is given as `emojiMap`; drawing (and the
per-node decode and resize) follows. -/
def pilmojiText (decode : Bytes → Option (Int × Int))
    (emojiMap : String → Option Bytes) (font : RenderFont)
    (x y : Int) (lines : List (List Node)) : List DrawEvent × Bool :=
  pilmojiLines decode emojiMap font (y_diff font.height font.size) font.height x y lines

/-- Inner node loop of `pilmoji.Pilmoji.text_with_discord_emoji` (core.py
lines 222-237).  The stream is the Unicode-emoji map entry for an EMOJI
node and the Discord map entry for a DISCORD_EMOJI node; a DISCORD_EMOJI
node with no stream falls back to the text `"[:" + content + ":]"`.
A present stream is decoded, resized and pasted as in `_render_emoji`;
otherwise the fallback text is drawn at `(cur_x, y)` and the cursor
advances by its measured width. -/
def pilmojiDiscordNodes (decode : Bytes → Option (Int × Int))
    (emojiMap : String → Option Bytes) (discordMap : String → Option Bytes)
    (font : RenderFont) (yd y : Int) : Int → List Node → List DrawEvent × Bool
  | _, [] => ([], false)
  | curX, n :: rest =>
    let stream := match n.type with
      | NodeType.EMOJI => emojiMap n.content
      | NodeType.DISCORD_EMOJI => discordMap n.content
      | NodeType.TEXT => none
    let fallback :=
      if n.type = NodeType.DISCORD_EMOJI ∧ discordMap n.content = none
      then "[:" ++ n.content ++ ":]" else n.content
    match stream with
    | some b =>
      match decode b with
      | some wh =>
        let dims := pilmojiResizeDims wh.1 wh.2 font.size
        let res := pilmojiDiscordNodes decode emojiMap discordMap font yd y
          (curX + dims.1) rest
        (DrawEvent.paste curX (y + yd) dims.1 dims.2 :: res.1, res.2)
      | none => ([], true)
    | none =>
      let res := pilmojiDiscordNodes decode emojiMap discordMap font yd y
        (curX + font.getlength fallback) rest
      (DrawEvent.text curX y fallback :: res.1, res.2)

/-- Modelled from the spec: the tokenizer module (`helper.parse_lines` of
apilmoji and `helpers.to_nodes` of pilmoji) is not under `src`; only its
callers are.  `matchSeqRest seq cs` checks whether the registry sequence
`seq` occurs verbatim at the start of `cs` and returns the remaining
input, implementing the verbatim-sequence test of the longest-match rule
of section 4.1. -/
def matchSeqRest : List Char → List Char → Option (List Char)
  | [], cs => some cs
  | _ :: _, [] => none
  | r :: rs, c :: cs => if r = c then matchSeqRest rs cs else none

/-- Modelled from the spec: the longest Unicode-emoji grapheme sequence of
the registry matching at the start of the input, together with the
remaining input (section 4.1; a partial sequence at the end of input is
never consumed, because only full registry sequences match). -/
def longestStep (cs : List Char) (acc : Option (List Char × List Char))
    (r : List Char) : Option (List Char × List Char) :=
  if r.isEmpty then acc
  else
    match matchSeqRest r cs with
    | none => acc
    | some rest =>
      match acc with
      | none => some (r, rest)
      | some p => if p.1.length < r.length then some (r, rest) else acc

/-- Modelled from the spec: fold `longestStep` over the registry to keep
the longest match found. -/
def longestEmoji (registry : List (List Char)) (cs : List Char) :
    Option (List Char × List Char) :=
  registry.foldl (longestStep cs) none

/-- Modelled from the spec: scanner for the tail of a custom-emoji
reference, after its opening `"[:"`: a run of identifier characters
(digits of the numeric ID) closed by `":]"`, returning the identifier and
the remaining input. -/
def scanCustomId : List Char → Option (List Char × List Char)
  | [] => none
  | ':' :: ']' :: rest => some ([], rest)
  | c :: rest =>
    if c = ':' ∨ c = '[' ∨ c = ']' then none
    else (scanCustomId rest).map (fun p => (c :: p.1, p.2))

/-- Modelled from the spec: the custom-emoji-reference match of section
4.1, a bracketed syntax carrying a numeric ID (the bracket form `"[:"` ID
`":]"` is the one whose textual fallback the compositor reconstructs as
`"[:" + content + ":]"`); the node content is the bare ID, an opaque
reference identifier per the data model of section 3. -/
def customMatch (cs : List Char) : Option (String × List Char) :=
  match cs with
  | '[' :: ':' :: rest =>
    match scanCustomId rest with
    | some p =>
      if p.1.isEmpty ∨ ¬ p.1.all Char.isDigit then none
      else some (String.mk p.1, p.2)
    | none => none
  | _ => none

/-- Modelled from the spec: prepending one plain character onto an already
tokenized tail, coalescing consecutive non-emoji characters into a single
TEXT node (section 4.1). -/
def consText (c : Char) : List Node → List Node
  | ⟨NodeType.TEXT, s⟩ :: rest => ⟨NodeType.TEXT, String.mk (c :: s.data)⟩ :: rest
  | ns => ⟨NodeType.TEXT, String.mk [c]⟩ :: ns

/-- Modelled from the spec: the left-to-right scan of section 4.1 with
explicit fuel (each step consumes at least one character, so fuel equal to
the input length suffices).  At each position the scanner tries, in
priority order, a custom-emoji-reference match when `detect` is on, then
the longest registry emoji match, and otherwise extends the current plain
text run by one character. -/
def tokenizeFuel (registry : List (List Char)) (detect : Bool) :
    Nat → List Char → List Node
  | 0, _ => []
  | _ + 1, [] => []
  | fuel + 1, c :: rest =>
    match (if detect then customMatch (c :: rest) else none) with
    | some p => ⟨NodeType.DISCORD_EMOJI, p.1⟩ :: tokenizeFuel registry detect fuel p.2
    | none =>
      match longestEmoji registry (c :: rest) with
      | some p =>
        ⟨NodeType.EMOJI, String.mk p.1⟩ :: tokenizeFuel registry detect fuel p.2
      | none => consText c (tokenizeFuel registry detect fuel rest)

/-- Modelled from the spec: `tokenize(line, detect_custom_emoji) -> Line`
(the contract of section 4.1), over a given emoji registry. -/
def to_nodes (registry : List (List Char)) (detect : Bool) (s : String) : List Node :=
  tokenizeFuel registry detect s.data.length s.data

/-- Concatenation of the contents of a node sequence, the round-trip
observation of section 8. -/
def nodesContent (ns : List Node) : String :=
  ns.foldr (fun n acc => n.content ++ acc) ""

/-- Character-level view of `nodesContent`, used by the induction. -/
def nodesChars (ns : List Node) : List Char :=
  ns.foldr (fun n acc => n.content.data ++ acc) []

/-- C5 counterexample: the claim computes `vertical_offset` as
`floor((line_height - font_size) / 2)` for every render call, but the
code computes `int((line_height - font_size) / 2)`, truncation toward
zero: a render call with `line_height = 15` and `font_size = 16` (the
apilmoji `line_height` argument is caller-chosen) yields 0 where the
claimed floor is -1. -/
theorem claim5_counterexample :
    y_diff 15 16 = 0 ∧ Int.fdiv (15 - 16) 2 = -1 ∧ (0 : Int) ≠ -1 := by
  refine ⟨by decide, by decide, by decide⟩

/-- C5 (amended): `y_diff` is truncation toward zero of
`(line_height - font_size) / 2`, which agrees with the claimed floor
whenever `font_size ≤ line_height`; in particular it is 2 at
`line_height = 20`, `font_size = 16`. -/
theorem claim5_vertical_offset (lineHeight fontSize : Int)
    (h : fontSize ≤ lineHeight) :
    y_diff lineHeight fontSize = Int.fdiv (lineHeight - fontSize) 2 ∧
      y_diff 20 16 = 2 := by
  constructor
  · unfold y_diff
    exact (Int.fdiv_eq_tdiv (by omega) (by omega)).symm
  · decide

/-- Witness for C5 at the concrete render geometry of the claim. -/
theorem claim5_witness :
    (16 : Int) ≤ 20 ∧ y_diff 20 16 = Int.fdiv (20 - 16) 2 :=
  ⟨by decide, (claim5_vertical_offset 20 16 (by decide)).1⟩

/-- C6: a network failure of any transport kind on a cache miss makes
`get_emoji` and `get_discord_emoji` return `None`; the failure never
escapes the source boundary (the models are total functions into
`Option`, and the error branch of the `except HTTPError` handler is the
`none` result proven here). -/
theorem claim6_fetch_failure_none (style emoji : String) (id : Int)
    (disk : String → Option Bytes) (fetch : String → Except HTTPFailure Bytes)
    (e e2 : HTTPFailure) :
    (disk (emojiCachePath style emoji) = none →
      fetch (getEmojiUrl style emoji) = Except.error e →
      (get_emoji style disk fetch emoji).result = none) ∧
    (disk (discordCachePath id) = none →
      fetch (getDiscordEmojiUrl id) = Except.error e2 →
      (get_discord_emoji disk fetch id).result = none) := by
  constructor
  · intro h1 h2
    unfold get_emoji
    rw [h1, h2]
  · intro h1 h2
    unfold get_discord_emoji
    rw [h1, h2]

/-- Witness for C6: an empty disk cache and a fetcher that times out on
every URL give a `None` result for both lookup paths. -/
theorem claim6_witness :
    (get_emoji "apple" (fun _ => none) (fun _ => Except.error HTTPFailure.timeout)
      "x").result = none ∧
    (get_discord_emoji (fun _ => none) (fun _ => Except.error HTTPFailure.timeout)
      7).result = none :=
  ⟨(claim6_fetch_failure_none "apple" "x" 7 (fun _ => none)
      (fun _ => Except.error HTTPFailure.timeout) HTTPFailure.timeout
      HTTPFailure.timeout).1 rfl rfl,
   (claim6_fetch_failure_none "apple" "x" 7 (fun _ => none)
      (fun _ => Except.error HTTPFailure.timeout) HTTPFailure.timeout
      HTTPFailure.timeout).2 rfl rfl⟩

/-- C9: when the bitmap file for a key is already in the on-disk cache,
both lookup paths return exactly the stored bytes, perform no network
fetch and write nothing. -/
theorem claim9_cache_hit (style emoji : String) (id : Int) (b b2 : Bytes)
    (disk : String → Option Bytes) (fetch : String → Except HTTPFailure Bytes) :
    (disk (emojiCachePath style emoji) = some b →
      get_emoji style disk fetch emoji = ⟨some b, [], none⟩) ∧
    (disk (discordCachePath id) = some b2 →
      get_discord_emoji disk fetch id = ⟨some b2, [], none⟩) := by
  constructor
  · intro h
    unfold get_emoji
    rw [h]
  · intro h
    unfold get_discord_emoji
    rw [h]

/-- Witness for C9: a disk cache holding bytes `[7, 7]` at every path
returns those bytes with no fetch and no write on both paths. -/
theorem claim9_witness :
    get_emoji "apple" (fun _ => some ([7, 7] : List Nat))
        (fun _ => Except.error HTTPFailure.timeout) "x" =
      ⟨some ([7, 7] : List Nat), [], none⟩ ∧
    get_discord_emoji (fun _ => some ([7, 7] : List Nat))
        (fun _ => Except.error HTTPFailure.timeout) 7 =
      ⟨some ([7, 7] : List Nat), [], none⟩ :=
  ⟨(claim9_cache_hit "apple" "x" 7 ([7, 7] : List Nat) ([7, 7] : List Nat)
      (fun _ => some ([7, 7] : List Nat))
      (fun _ => Except.error HTTPFailure.timeout)).1 rfl,
   (claim9_cache_hit "apple" "x" 7 ([7, 7] : List Nat) ([7, 7] : List Nat)
      (fun _ => some ([7, 7] : List Nat))
      (fun _ => Except.error HTTPFailure.timeout)).2 rfl⟩

/-- C10: on a cache miss, `get_emoji` fetches a URL that depends only on
the style: two different uncached emojis lead to fetches of the identical
URL list, and that URL is the style-keyed endpoint with no trace of the
emoji. -/
theorem claim10_url_style_only (style e1 e2 : String)
    (disk : String → Option Bytes) (fetch : String → Except HTTPFailure Bytes)
    (h1 : disk (emojiCachePath style e1) = none)
    (h2 : disk (emojiCachePath style e2) = none) :
    (get_emoji style disk fetch e1).fetched =
      (get_emoji style disk fetch e2).fetched ∧
    (get_emoji style disk fetch e1).fetched = [getEmojiUrl style e1] := by
  unfold get_emoji getEmojiUrl
  rw [h1, h2]
  cases fetch ("https://emojicdn.elk.sh/emoji?style=" ++ style) <;> exact ⟨rfl, rfl⟩

/-- Witness for C10 with two distinct uncached emojis under one style. -/
theorem claim10_witness :
    (get_emoji "apple" (fun _ => none)
        (fun _ => Except.ok ([1] : List Nat)) "a").fetched =
      (get_emoji "apple" (fun _ => none)
        (fun _ => Except.ok ([1] : List Nat)) "b").fetched ∧
    (get_emoji "apple" (fun _ => none)
        (fun _ => Except.ok ([1] : List Nat)) "a").fetched =
      [getEmojiUrl "apple" "a"] :=
  claim10_url_style_only "apple" "a" "b" (fun _ => none)
    (fun _ => Except.ok ([1] : List Nat)) rfl rfl

lemma pyTrunc_eq_floor (q : ℚ) (hq : 0 ≤ q) : pyTrunc q = ⌊q⌋ := by
  unfold pyTrunc
  rw [Int.tdiv_eq_ediv (Rat.num_nonneg.mpr hq) (by positivity)]
  exact Rat.floor_def.symm

lemma trunc_envelope_bracket (q x : ℚ) (hx0 : 0 ≤ x)
    (henv : |q - x| ≤ x / 2 ^ 50) (hmag : x < 2 ^ 50) :
    ⌊x⌋ - 1 ≤ pyTrunc q ∧ pyTrunc q ≤ ⌊x⌋ + 1 := by
  have hd : x / 2 ^ 50 < 1 := by
    rw [div_lt_one (by positivity)]
    exact hmag
  obtain ⟨hl, hr⟩ := abs_le.mp henv
  have hxx : x / 2 ^ 50 ≤ x := div_le_self hx0 (by norm_num)
  have hq0 : 0 ≤ q := by linarith
  rw [pyTrunc_eq_floor q hq0]
  constructor
  · apply Int.le_floor.mpr
    push_cast
    have hfx := Int.floor_le x
    linarith
  · have hfx := Int.lt_floor_add_one x
    have h3 : ⌊q⌋ < ⌊x⌋ + 2 := Int.floor_lt.mpr (by push_cast; linarith)
    omega

/-- C3 counterexample, at a resolved bitmap of width 9 and height 7 and
target size 6.  The claim predicts width `floor(6) - 1 = 5` and height
`round(5 * 7 / 9) = round(3.888..) = 4` (round to nearest is
`floor(q + 1/2)`, here `Int.fdiv (2 * 35 + 9) (2 * 9) = 4`).  The
apilmoji resize instead produces width `6 - 2 = 4`, a float-free integer
computation, and the pilmoji resize truncates the product and yields
height 3: the instantiation below evaluates the double product
`5 * (7 / 9)` as the exact ratio `35 / 9`, and every value in its
IEEE-754 envelope (the program computes `3.888888888888889`) truncates to
the same 3, since `35 / 9` is at distance `1 / 9` above its floor. -/
theorem claim3_counterexample :
    (apilmojiResizeDimsFl (fun es h w => (es * h : ℚ) / (w : ℚ)) 9 7 6).1 = 4 ∧
    (4 : Int) ≠ 6 - 1 ∧
    (pilmojiResizeDimsFl (fun es h w => (es * h : ℚ) / (w : ℚ)) 9 7 6).2 = 3 ∧
    Int.fdiv (2 * ((6 - 1) * 7) + 9) (2 * 9) = 4 ∧
    (3 : Int) ≠ 4 := by
  refine ⟨by decide, by decide, ?_, by decide, by decide⟩
  show pyTrunc ((((6 : Int) - 1 : Int) * 7 : ℚ) / ((9 : Int) : ℚ)) = 3
  have hq : ((((6 : Int) - 1 : Int) * 7 : ℚ) / ((9 : Int) : ℚ)) = 35 / 9 := by
    norm_num
  rw [hq, pyTrunc_eq_floor (35 / 9) (by norm_num), Int.floor_eq_iff]
  constructor <;> norm_num

/-- C3 (amended): for a decoded bitmap of positive width `w` and height
`h ≥ 0` and target size `s ≥ 2`, the pilmoji resize produces width
exactly `s - 1` (PADDING 1) and the apilmoji resize width exactly `s - 2`
(its padding is 2, not the claimed 1); the height is Python `int()` of
the double-precision product `emoji_size * (h / w)` — truncation of an
approximate product, not round-to-nearest — so whenever the double value
lies in its IEEE-754 relative-error envelope and the ratio is below
`2 ^ 50`, the height lies within 1 of `floor((s - padding) * h / w)`, and
equals that floor whenever the double product happens to be exact. -/
theorem claim3_resize_dims (pyProd : Int → Int → Int → ℚ) (w h s : Int)
    (hw : 0 < w) (hh : 0 ≤ h) (hs : 2 ≤ s)
    (henv1 : floatEnvelope pyProd (s - 1) h w)
    (henv2 : floatEnvelope pyProd (s - 2) h w)
    (hmag1 : exactRatio (s - 1) h w < 2 ^ 50)
    (hmag2 : exactRatio (s - 2) h w < 2 ^ 50) :
    (pilmojiResizeDimsFl pyProd w h s).1 = s - 1 ∧
    ⌊exactRatio (s - 1) h w⌋ - 1 ≤ (pilmojiResizeDimsFl pyProd w h s).2 ∧
    (pilmojiResizeDimsFl pyProd w h s).2 ≤ ⌊exactRatio (s - 1) h w⌋ + 1 ∧
    (pyProd (s - 1) h w = exactRatio (s - 1) h w →
      (pilmojiResizeDimsFl pyProd w h s).2 = ⌊exactRatio (s - 1) h w⌋) ∧
    (apilmojiResizeDimsFl pyProd w h s).1 = s - 2 ∧
    ⌊exactRatio (s - 2) h w⌋ - 1 ≤ (apilmojiResizeDimsFl pyProd w h s).2 ∧
    (apilmojiResizeDimsFl pyProd w h s).2 ≤ ⌊exactRatio (s - 2) h w⌋ + 1 ∧
    (pyProd (s - 2) h w = exactRatio (s - 2) h w →
      (apilmojiResizeDimsFl pyProd w h s).2 = ⌊exactRatio (s - 2) h w⌋) := by
  have hx1 : (0 : ℚ) ≤ exactRatio (s - 1) h w := by
    unfold exactRatio
    apply div_nonneg
    · exact mul_nonneg (by exact_mod_cast (by omega : (0 : Int) ≤ s - 1))
        (by exact_mod_cast hh)
    · exact_mod_cast le_of_lt hw
  have hx2 : (0 : ℚ) ≤ exactRatio (s - 2) h w := by
    unfold exactRatio
    apply div_nonneg
    · exact mul_nonneg (by exact_mod_cast (by omega : (0 : Int) ≤ s - 2))
        (by exact_mod_cast hh)
    · exact_mod_cast le_of_lt hw
  have hb1 := trunc_envelope_bracket (pyProd (s - 1) h w)
    (exactRatio (s - 1) h w) hx1 henv1 hmag1
  have hb2 := trunc_envelope_bracket (pyProd (s - 2) h w)
    (exactRatio (s - 2) h w) hx2 henv2 hmag2
  refine ⟨rfl, hb1.1, hb1.2, ?_, rfl, hb2.1, hb2.2, ?_⟩
  · intro he
    show pyTrunc (pyProd (s - EMOJI_PADDING) h w) = ⌊exactRatio (s - 1) h w⌋
    rw [show s - EMOJI_PADDING = s - 1 from rfl, he,
      pyTrunc_eq_floor (exactRatio (s - 1) h w) hx1]
  · intro he
    show pyTrunc (pyProd (s - 2) h w) = ⌊exactRatio (s - 2) h w⌋
    rw [he, pyTrunc_eq_floor (exactRatio (s - 2) h w) hx2]

/-- Witness for C3 at the bitmap and size of the counterexample input,
with the double product instantiated as the exact ratio, which sits in
its own envelope. -/
theorem claim3_witness :
    (pilmojiResizeDimsFl (fun es h w => (es * h : ℚ) / (w : ℚ)) 9 7 6).1 = 6 - 1 ∧
    ⌊exactRatio (6 - 1) 7 9⌋ - 1 ≤
      (pilmojiResizeDimsFl (fun es h w => (es * h : ℚ) / (w : ℚ)) 9 7 6).2 ∧
    (pilmojiResizeDimsFl (fun es h w => (es * h : ℚ) / (w : ℚ)) 9 7 6).2 ≤
      ⌊exactRatio (6 - 1) 7 9⌋ + 1 ∧
    (apilmojiResizeDimsFl (fun es h w => (es * h : ℚ) / (w : ℚ)) 9 7 6).1 = 6 - 2 ∧
    ⌊exactRatio (6 - 2) 7 9⌋ - 1 ≤
      (apilmojiResizeDimsFl (fun es h w => (es * h : ℚ) / (w : ℚ)) 9 7 6).2 ∧
    (apilmojiResizeDimsFl (fun es h w => (es * h : ℚ) / (w : ℚ)) 9 7 6).2 ≤
      ⌊exactRatio (6 - 2) 7 9⌋ + 1 := by
  obtain ⟨h1, h2, h3, _, h5, h6, h7, _⟩ :=
    claim3_resize_dims (fun es h w => (es * h : ℚ) / (w : ℚ)) 9 7 6
      (by decide) (by decide) (by decide)
      (by unfold floatEnvelope exactRatio; simp; positivity)
      (by unfold floatEnvelope exactRatio; simp; positivity)
      (by unfold exactRatio; norm_num)
      (by unfold exactRatio; norm_num)
  exact ⟨h1, h2, h3, h5, h6, h7⟩

lemma collectStep_fst_mem (a : Finset String × Finset String) (n : Node)
    (k : String) :
    k ∈ (collectStep a n).1 ↔
      k ∈ a.1 ∨ (n.type = NodeType.EMOJI ∧ n.content = k) := by
  unfold collectStep
  by_cases h1 : n.type = NodeType.EMOJI
  · simp [h1, Finset.mem_insert, eq_comm]
    tauto
  · by_cases h2 : n.type = NodeType.DISCORD_EMOJI <;> simp [h1, h2]

lemma collectStep_snd_mem (a : Finset String × Finset String) (n : Node)
    (k : String) :
    k ∈ (collectStep a n).2 ↔
      k ∈ a.2 ∨ (n.type = NodeType.DISCORD_EMOJI ∧ n.content = k) := by
  unfold collectStep
  by_cases h1 : n.type = NodeType.EMOJI
  · have : n.type ≠ NodeType.DISCORD_EMOJI := by rw [h1]; intro hc; cases hc
    simp [h1, this]
  · by_cases h2 : n.type = NodeType.DISCORD_EMOJI
    · simp [h1, h2, Finset.mem_insert, eq_comm]
      tauto
    · simp [h1, h2]

lemma foldl_collectStep_fst :
    ∀ (nodes : List Node) (acc : Finset String × Finset String) (k : String),
      k ∈ (nodes.foldl collectStep acc).1 ↔
        k ∈ acc.1 ∨ ∃ n ∈ nodes, n.type = NodeType.EMOJI ∧ n.content = k
  | [], acc, k => by simp
  | n :: ns, acc, k => by
    rw [List.foldl_cons, foldl_collectStep_fst ns (collectStep acc n) k,
      collectStep_fst_mem]
    constructor
    · rintro ((h | h) | ⟨m, hm, hp⟩)
      · exact Or.inl h
      · exact Or.inr ⟨n, List.mem_cons_self n ns, h⟩
      · exact Or.inr ⟨m, List.mem_cons_of_mem n hm, hp⟩
    · rintro (h | ⟨m, hm, hp⟩)
      · exact Or.inl (Or.inl h)
      · rcases List.mem_cons.mp hm with h1 | h1
        · exact Or.inl (Or.inr (h1 ▸ hp))
        · exact Or.inr ⟨m, h1, hp⟩

lemma foldl_collectStep_snd :
    ∀ (nodes : List Node) (acc : Finset String × Finset String) (k : String),
      k ∈ (nodes.foldl collectStep acc).2 ↔
        k ∈ acc.2 ∨ ∃ n ∈ nodes, n.type = NodeType.DISCORD_EMOJI ∧ n.content = k
  | [], acc, k => by simp
  | n :: ns, acc, k => by
    rw [List.foldl_cons, foldl_collectStep_snd ns (collectStep acc n) k,
      collectStep_snd_mem]
    constructor
    · rintro ((h | h) | ⟨m, hm, hp⟩)
      · exact Or.inl h
      · exact Or.inr ⟨n, List.mem_cons_self n ns, h⟩
      · exact Or.inr ⟨m, List.mem_cons_of_mem n hm, hp⟩
    · rintro (h | ⟨m, hm, hp⟩)
      · exact Or.inl (Or.inl h)
      · rcases List.mem_cons.mp hm with h1 | h1
        · exact Or.inl (Or.inr (h1 ▸ hp))
        · exact Or.inr ⟨m, h1, hp⟩

lemma foldl_lines_fst :
    ∀ (nodesLst : List (List Node)) (acc : Finset String × Finset String)
      (k : String),
      k ∈ (nodesLst.foldl (fun acc nodes => nodes.foldl collectStep acc) acc).1 ↔
        k ∈ acc.1 ∨
          ∃ nodes ∈ nodesLst, ∃ n ∈ nodes,
            n.type = NodeType.EMOJI ∧ n.content = k
  | [], acc, k => by simp
  | l :: ls, acc, k => by
    rw [List.foldl_cons, foldl_lines_fst ls (l.foldl collectStep acc) k,
      foldl_collectStep_fst]
    constructor
    · rintro ((h | h) | ⟨m, hm, hp⟩)
      · exact Or.inl h
      · exact Or.inr ⟨l, List.mem_cons_self l ls, h⟩
      · exact Or.inr ⟨m, List.mem_cons_of_mem l hm, hp⟩
    · rintro (h | ⟨m, hm, hp⟩)
      · exact Or.inl (Or.inl h)
      · rcases List.mem_cons.mp hm with h1 | h1
        · exact Or.inl (Or.inr (h1 ▸ hp))
        · exact Or.inr ⟨m, h1, hp⟩

lemma foldl_lines_snd :
    ∀ (nodesLst : List (List Node)) (acc : Finset String × Finset String)
      (k : String),
      k ∈ (nodesLst.foldl (fun acc nodes => nodes.foldl collectStep acc) acc).2 ↔
        k ∈ acc.2 ∨
          ∃ nodes ∈ nodesLst, ∃ n ∈ nodes,
            n.type = NodeType.DISCORD_EMOJI ∧ n.content = k
  | [], acc, k => by simp
  | l :: ls, acc, k => by
    rw [List.foldl_cons, foldl_lines_snd ls (l.foldl collectStep acc) k,
      foldl_collectStep_snd]
    constructor
    · rintro ((h | h) | ⟨m, hm, hp⟩)
      · exact Or.inl h
      · exact Or.inr ⟨l, List.mem_cons_self l ls, h⟩
      · exact Or.inr ⟨m, List.mem_cons_of_mem l hm, hp⟩
    · rintro (h | ⟨m, hm, hp⟩)
      · exact Or.inl (Or.inl h)
      · rcases List.mem_cons.mp hm with h1 | h1
        · exact Or.inl (Or.inr (h1 ▸ hp))
        · exact Or.inr ⟨m, h1, hp⟩

/-- C1: per render call, the renderers collect the union of distinct
emoji keys over all lines and nodes, and the per-key resolver task list
contains each referenced key exactly once however many nodes and lines
reference it: the count of a key among the tasks is 1 when some node of
some line references it and 0 otherwise, and both collected key sets are
exactly the unions over all lines and nodes. -/
theorem claim1_dedup_union (nodesLst : List (List Node)) (k : String) :
    ((pilmojiEmojiTasks nodesLst).count k =
      if k ∈ pilmojiEmojiTasks nodesLst then 1 else 0) ∧
    (k ∈ pilmojiEmojiTasks nodesLst ↔
      ∃ nodes ∈ nodesLst, ∃ n ∈ nodes,
        n.type = NodeType.EMOJI ∧ n.content = k) ∧
    (k ∈ (collectSets nodesLst).1 ↔
      ∃ nodes ∈ nodesLst, ∃ n ∈ nodes,
        n.type = NodeType.EMOJI ∧ n.content = k) ∧
    (k ∈ (collectSets nodesLst).2 ↔
      ∃ nodes ∈ nodesLst, ∃ n ∈ nodes,
        n.type = NodeType.DISCORD_EMOJI ∧ n.content = k) := by
  refine ⟨List.count_eq_of_nodup (List.nodup_dedup _), ?_, ?_, ?_⟩
  · unfold pilmojiEmojiTasks
    constructor
    · intro hk
      rcases List.mem_map.mp (List.mem_dedup.mp hk) with ⟨n, hn, hc⟩
      rcases List.mem_filter.mp hn with ⟨hmem, htype⟩
      rcases List.mem_flatten.mp hmem with ⟨nodes, hnodes, hnn⟩
      exact ⟨nodes, hnodes, n, hnn, by simpa using htype, hc⟩
    · rintro ⟨nodes, hnodes, n, hnn, htype, hc⟩
      exact List.mem_dedup.mpr (List.mem_map.mpr
        ⟨n, List.mem_filter.mpr
          ⟨List.mem_flatten.mpr ⟨nodes, hnodes, hnn⟩, by simpa using htype⟩, hc⟩)
  · have h := foldl_lines_fst nodesLst (∅, ∅) k
    simpa [collectSets] using h
  · have h := foldl_lines_snd nodesLst (∅, ∅) k
    simpa [collectSets] using h

/-- C2 counterexample: in `pilmoji.Pilmoji.text`, decode and resize run
inside the draw loop, so a key whose resolved bytes are not a valid image
raises only when its node is reached: rendering the single line
`"Hi " + emoji` with undecodable bytes for the emoji raises the decode
error (flag true) after the text `"Hi "` has already been drawn, which
refutes `performs no drawing for any line`. -/
theorem claim2_counterexample :
    pilmojiText (fun _ => none)
        (fun s => if s = "e" then some ([0] : List Nat) else none)
        ⟨16, 20, fun s => (s.length : Int)⟩ 0 0
        [[⟨NodeType.TEXT, "Hi "⟩, ⟨NodeType.EMOJI, "e"⟩]] =
      ([DrawEvent.text 0 0 "Hi "], true) ∧
    ([DrawEvent.text 0 0 "Hi "] : List DrawEvent) ≠ [] :=
  ⟨by decide, by decide⟩

/-- C2 (amended): in `apilmoji.Pilmoji.text` resolution and the whole
bitmap preparation (decode and resize of every resolved stream) do run
before any pixel is drawn, so a decode failure there raises with no draw
event issued for any line; `pilmoji.Pilmoji.text` completes resolution
before drawing but prepares bitmaps per node inside the draw loop, so a
decode failure there can follow earlier draws (see the counterexample). -/
theorem claim2_resolve_before_draw (decode : Bytes → Option (Int × Int))
    (font : RenderFont) (lineHeight x y : Int) (nodesLst : List (List Node))
    (emjMap : String → Option Bytes)
    (h : (apilmojiText decode font lineHeight x y nodesLst emjMap).2 = true) :
    (apilmojiText decode font lineHeight x y nodesLst emjMap).1 = [] := by
  simp only [apilmojiText] at h ⊢
  split at h
  next hc => simp at h
  next hc =>
    split at h
    next hd => simp at h
    next hd => rw [if_neg hc, if_neg hd]

/-- Witness for C2: one emoji node whose resolved bytes fail to decode
makes the apilmoji call error with an empty event list. -/
theorem claim2_witness :
    (apilmojiText (fun _ => none) ⟨16, 20, fun _ => 0⟩ 20 0 0
        [[⟨NodeType.EMOJI, "e"⟩]] (fun _ => some ([0] : List Nat))).1 = [] :=
  claim2_resolve_before_draw (fun _ => none) ⟨16, 20, fun _ => 0⟩ 20 0 0
    [[⟨NodeType.EMOJI, "e"⟩]] (fun _ => some ([0] : List Nat)) (by decide)

/-- C4 counterexample: rendering one resolved emoji node followed by a
text node in `apilmoji.Pilmoji.text` with font size 16 and a 10 by 10
bitmap pastes a prepared bitmap of width 14 at `(cur_x + 1, y + y_diff)`
but places the following node at `x = 16 = cur_x + int(font_size)`: the
cursor advanced by 16, not by the prepared width 14, refuting the
advance-by-prepared-width part of the claim. -/
theorem claim4_counterexample :
    apilmojiText (fun _ => some ((10 : Int), (10 : Int)))
        ⟨16, 20, fun s => (s.length : Int)⟩ 20 0 0
        [[⟨NodeType.EMOJI, "e"⟩, ⟨NodeType.TEXT, "A"⟩]]
        (fun s => if s = "e" then some ([0] : List Nat) else none) =
      ([DrawEvent.paste 1 2 14 14, DrawEvent.text 16 0 "A"], false) ∧
    (16 : Int) ≠ 14 :=
  ⟨by decide, by decide⟩

/-- C4 (amended): for a node whose emoji key resolved (and, for pilmoji,
whose stream decodes), `apilmoji.Pilmoji.text` pastes the prepared bitmap
at `(cur_x + 1, y + y_diff)` and advances the cursor by `int(font_size)`
(not the prepared width, which is smaller by the padding 2), while
`pilmoji.Pilmoji.text` pastes at `(cur_x, y + y_diff)` (without the +1)
and advances by exactly the prepared width `int(font_size) - 1`. -/
theorem claim4_paste_advance (resized : String → Option (Int × Int))
    (decode : Bytes → Option (Int × Int)) (emojiMap : String → Option Bytes)
    (font : RenderFont) (yd y curX : Int) (n : Node) (rest : List Node)
    (w h : Int) (b : Bytes) (wh : Int × Int) :
    (resized n.content = some (w, h) →
      (n.type = NodeType.EMOJI ∨ n.type = NodeType.DISCORD_EMOJI) →
      apilmojiNodes resized font yd y curX (n :: rest) =
        DrawEvent.paste (curX + 1) (y + yd) w h ::
          apilmojiNodes resized font yd y (curX + font.size) rest) ∧
    (emojiMap n.content = some b → decode b = some wh →
      n.type = NodeType.EMOJI →
      pilmojiNodes decode emojiMap font yd y curX (n :: rest) =
        (DrawEvent.paste curX (y + yd) (pilmojiResizeDims wh.1 wh.2 font.size).1
            (pilmojiResizeDims wh.1 wh.2 font.size).2 ::
          (pilmojiNodes decode emojiMap font yd y
            (curX + (pilmojiResizeDims wh.1 wh.2 font.size).1) rest).1,
         (pilmojiNodes decode emojiMap font yd y
            (curX + (pilmojiResizeDims wh.1 wh.2 font.size).1) rest).2)) := by
  constructor
  · intro hr ht
    simp only [apilmojiNodes]
    rw [if_pos ht, hr]
  · intro hm hd ht
    simp only [pilmojiNodes]
    rw [if_pos ht, hm]
    simp [hd]

/-- Witness for C4 at a resolved 10 by 10 bitmap and font size 16. -/
theorem claim4_witness :
    (apilmojiNodes (fun _ => some ((14 : Int), (14 : Int)))
        ⟨16, 20, fun s => (s.length : Int)⟩ 2 0 0
        [⟨NodeType.EMOJI, "e"⟩, ⟨NodeType.TEXT, "A"⟩] =
      DrawEvent.paste 1 2 14 14 ::
        apilmojiNodes (fun _ => some ((14 : Int), (14 : Int)))
          ⟨16, 20, fun s => (s.length : Int)⟩ 2 0 16
          [⟨NodeType.TEXT, "A"⟩]) ∧
    (pilmojiNodes (fun _ => some ((10 : Int), (10 : Int)))
        (fun _ => some ([0] : List Nat)) ⟨16, 20, fun s => (s.length : Int)⟩
        2 0 0 [⟨NodeType.EMOJI, "e"⟩] =
      (DrawEvent.paste 0 2
          (pilmojiResizeDims 10 10 16).1 (pilmojiResizeDims 10 10 16).2 ::
        (pilmojiNodes (fun _ => some ((10 : Int), (10 : Int)))
          (fun _ => some ([0] : List Nat)) ⟨16, 20, fun s => (s.length : Int)⟩
          2 0 (0 + (pilmojiResizeDims 10 10 16).1) []).1,
       (pilmojiNodes (fun _ => some ((10 : Int), (10 : Int)))
          (fun _ => some ([0] : List Nat)) ⟨16, 20, fun s => (s.length : Int)⟩
          2 0 (0 + (pilmojiResizeDims 10 10 16).1) []).2)) :=
  ⟨(claim4_paste_advance (fun _ => some ((14 : Int), (14 : Int)))
      (fun _ => some ((10 : Int), (10 : Int))) (fun _ => some ([0] : List Nat))
      ⟨16, 20, fun s => (s.length : Int)⟩ 2 0 0 ⟨NodeType.EMOJI, "e"⟩
      [⟨NodeType.TEXT, "A"⟩] 14 14 ([0] : List Nat) (10, 10)).1 rfl
      (Or.inl rfl),
   (claim4_paste_advance (fun _ => some ((14 : Int), (14 : Int)))
      (fun _ => some ((10 : Int), (10 : Int))) (fun _ => some ([0] : List Nat))
      ⟨16, 20, fun s => (s.length : Int)⟩ 2 0 0 ⟨NodeType.EMOJI, "e"⟩ []
      14 14 ([0] : List Nat) (10, 10)).2 rfl rfl rfl⟩

/-- C8 counterexample: an unresolved Discord-emoji node rendered by
`apilmoji.Pilmoji.text` is drawn as its raw content `"123"` with no
bracket syntax, not as the claimed literal fallback `"[:123:]"`, and the
cursor advances by the measured width of the raw content. -/
theorem claim8_counterexample :
    apilmojiText (fun _ => none) ⟨16, 20, fun s => (s.length : Int)⟩ 20 0 0
        [[⟨NodeType.DISCORD_EMOJI, "123"⟩]] (fun _ => none) =
      ([DrawEvent.text 0 0 "123"], false) ∧
    ("123" : String) ≠ "[:123:]" :=
  ⟨by decide, by decide⟩

/-- C8 (amended): in `pilmoji.Pilmoji.text_with_discord_emoji` an
unresolved Discord-emoji node draws the literal fallback text
`"[:" + content + ":]"` (content is the numeric-ID string carried by the
node) at `(cur_x, y)` and advances the cursor by exactly
`int(font.getlength(fallback))`; in `apilmoji.Pilmoji.text` the same node
is drawn as its raw content with no brackets, advancing by the raw
content width. -/
theorem claim8_fallback (decode : Bytes → Option (Int × Int))
    (emojiMap discordMap : String → Option Bytes)
    (resized : String → Option (Int × Int)) (font : RenderFont)
    (yd y curX : Int) (content : String) (rest : List Node) :
    (discordMap content = none →
      pilmojiDiscordNodes decode emojiMap discordMap font yd y curX
          (⟨NodeType.DISCORD_EMOJI, content⟩ :: rest) =
        (DrawEvent.text curX y ("[:" ++ content ++ ":]") ::
            (pilmojiDiscordNodes decode emojiMap discordMap font yd y
              (curX + font.getlength ("[:" ++ content ++ ":]")) rest).1,
          (pilmojiDiscordNodes decode emojiMap discordMap font yd y
            (curX + font.getlength ("[:" ++ content ++ ":]")) rest).2)) ∧
    (resized content = none →
      apilmojiNodes resized font yd y curX
          (⟨NodeType.DISCORD_EMOJI, content⟩ :: rest) =
        DrawEvent.text curX y content ::
          apilmojiNodes resized font yd y (curX + font.getlength content) rest) := by
  constructor
  · intro hmiss
    simp only [pilmojiDiscordNodes]
    simp [hmiss]
  · intro hmiss
    simp only [apilmojiNodes]
    simp [hmiss]

/-- Witness for C8: both renderers on a missing Discord emoji with ID 7. -/
theorem claim8_witness :
    pilmojiDiscordNodes (fun _ => none) (fun _ => none) (fun _ => none)
        ⟨16, 20, fun s => (s.length : Int)⟩ 2 0 0
        [⟨NodeType.DISCORD_EMOJI, "7"⟩] =
      ([DrawEvent.text 0 0 "[:7:]"], false) ∧
    apilmojiNodes (fun _ => none) ⟨16, 20, fun s => (s.length : Int)⟩ 2 0 0
        [⟨NodeType.DISCORD_EMOJI, "7"⟩] = [DrawEvent.text 0 0 "7"] := by
  constructor
  · rw [(claim8_fallback (fun _ => none) (fun _ => none) (fun _ => none)
      (fun _ => none) ⟨16, 20, fun s => (s.length : Int)⟩ 2 0 0 "7" []).1 rfl]
    decide
  · rw [(claim8_fallback (fun _ => none) (fun _ => none) (fun _ => none)
      (fun _ => none) ⟨16, 20, fun s => (s.length : Int)⟩ 2 0 0 "7" []).2 rfl]
    decide

lemma matchSeqRest_append :
    ∀ (r cs rest : List Char), matchSeqRest r cs = some rest → r ++ rest = cs
  | [], cs, rest => by
    intro h
    simp only [matchSeqRest, Option.some.injEq] at h
    simp [h]
  | a :: rs, [], rest => by
    intro h
    simp [matchSeqRest] at h
  | a :: rs, c :: cs, rest => by
    intro h
    simp only [matchSeqRest] at h
    by_cases hac : a = c
    · rw [if_pos hac] at h
      have hr := matchSeqRest_append rs cs rest h
      subst hac
      simp [hr]
    · rw [if_neg hac] at h
      simp at h

lemma longestStep_cases (cs : List Char) (acc : Option (List Char × List Char))
    (r : List Char) :
    longestStep cs acc r = acc ∨
      ∃ rest, matchSeqRest r cs = some rest ∧ r.isEmpty = false ∧
        longestStep cs acc r = some (r, rest) := by
  unfold longestStep
  split
  · exact Or.inl rfl
  next he =>
    split
    · exact Or.inl rfl
    next rest hm =>
      split
      · exact Or.inr ⟨rest, hm, by simpa using he, rfl⟩
      next =>
        split
        · exact Or.inr ⟨rest, hm, by simpa using he, rfl⟩
        · exact Or.inl rfl

lemma longestStep_inv (cs : List Char) (acc : Option (List Char × List Char))
    (r : List Char)
    (hacc : ∀ p, acc = some p → p.1 ++ p.2 = cs ∧ p.1 ≠ []) :
    ∀ p, longestStep cs acc r = some p → p.1 ++ p.2 = cs ∧ p.1 ≠ [] := by
  intro p h
  rcases longestStep_cases cs acc r with hc | ⟨rest, hm, hne, hs⟩
  · exact hacc p (hc.symm.trans h)
  · rw [hs] at h
    cases h
    have hr := matchSeqRest_append r cs rest hm
    have hrne : r ≠ [] := by
      intro hre
      rw [hre] at hne
      simp [List.isEmpty] at hne
    exact ⟨hr, hrne⟩

lemma longestEmojiAux (cs : List Char) :
    ∀ (reg : List (List Char)) (acc : Option (List Char × List Char)),
      (∀ p, acc = some p → p.1 ++ p.2 = cs ∧ p.1 ≠ []) →
      ∀ p, reg.foldl (longestStep cs) acc = some p →
        p.1 ++ p.2 = cs ∧ p.1 ≠ []
  | [], _, hacc, p, h => hacc p h
  | r :: rs, acc, hacc, p, h =>
    longestEmojiAux cs rs (longestStep cs acc r)
      (longestStep_inv cs acc r hacc) p h

lemma longestEmoji_spec (registry : List (List Char)) (cs : List Char)
    (p : List Char × List Char) (h : longestEmoji registry cs = some p) :
    p.1 ++ p.2 = cs ∧ p.1 ≠ [] :=
  longestEmojiAux cs registry none (fun _ hq => by simp at hq) p h

lemma nodesChars_consText (c : Char) (ns : List Node) :
    nodesChars (consText c ns) = c :: nodesChars ns := by
  cases ns with
  | nil => rfl
  | cons n rest =>
    rcases n with ⟨t, s⟩
    cases t <;> rfl

lemma tokenizeFuel_concat (registry : List (List Char)) :
    ∀ (fuel : Nat) (cs : List Char), cs.length ≤ fuel →
      nodesChars (tokenizeFuel registry false fuel cs) = cs
  | 0, cs, h => by
    have hcs : cs = [] := List.length_eq_zero.mp (Nat.le_zero.mp h)
    subst hcs
    rfl
  | _ + 1, [], _ => rfl
  | fuel + 1, c :: rest, h => by
    have hlen : rest.length + 1 ≤ fuel + 1 := by simpa using h
    cases hle : longestEmoji registry (c :: rest) with
    | none =>
      have ih := tokenizeFuel_concat registry fuel rest (by omega)
      simp only [tokenizeFuel, hle, Bool.false_eq_true, if_false]
      rw [nodesChars_consText, ih]
    | some p =>
      obtain ⟨hpp, hpne⟩ := longestEmoji_spec registry (c :: rest) p hle
      have h1 : 1 ≤ p.1.length := by
        cases hp1 : p.1 with
        | nil => exact absurd hp1 hpne
        | cons a l => simp
      have hl2 : p.1.length + p.2.length = rest.length + 1 := by
        have hc := congrArg List.length hpp
        simpa using hc
      have ih := tokenizeFuel_concat registry fuel p.2 (by omega)
      simp only [tokenizeFuel, hle, Bool.false_eq_true, if_false]
      show (String.mk p.1).data ++ nodesChars (tokenizeFuel registry false fuel p.2) =
        c :: rest
      rw [ih]
      exact hpp

lemma nodesContent_eq_mk (ns : List Node) :
    nodesContent ns = String.mk (nodesChars ns) := by
  induction ns with
  | nil => rfl
  | cons n rest ih =>
    show n.content ++ nodesContent rest = String.mk (n.content.data ++ nodesChars rest)
    rw [ih]
    rfl

/-- C7 counterexample: with custom-emoji detection on, a custom-emoji
reference tokenizes to a node whose content is the bare numeric ID (the
data model of section 3, corroborated by `int(node.content)` in
pilmoji core.py line 229), so concatenating node contents drops the
bracket characters and does not reproduce the input. -/
theorem claim7_counterexample :
    to_nodes [] true "[:7:]" = [⟨NodeType.DISCORD_EMOJI, "7"⟩] ∧
    nodesContent (to_nodes [] true "[:7:]") = "7" ∧
    ("7" : String) ≠ "[:7:]" :=
  ⟨by decide, by decide, by decide⟩

/-- C7 (amended): with custom-emoji detection off, tokenizing any input
string over any emoji registry and concatenating the node contents in
order reproduces the input exactly, and the empty input tokenizes to the
empty node sequence under either detection mode. -/
theorem claim7_round_trip (registry : List (List Char)) (detect : Bool)
    (s : String) :
    nodesContent (to_nodes registry false s) = s ∧
    to_nodes registry detect "" = [] := by
  constructor
  · rw [nodesContent_eq_mk]
    unfold to_nodes
    rw [tokenizeFuel_concat registry s.data.length s.data (le_refl _)]
  · rfl
